import Mathlib

/-!
# Verification of the ModuleUtil path resolver

A shallow embedding of `src/module-util/module-util-host.ts` (class
`ModuleUtilHost`), the canonical variant of the resolver described by the
specification.  Pure string manipulation performed by the external
`IPathUtil` collaborator and the synchronous `IFileLoader` collaborator are
modelled at their interface boundary (spec section 6); everything else is a
direct translation of the TypeScript source.

State is passed explicitly: the process-wide `RESOLVED_PATHS` map becomes an
explicit `Cache` value threaded through `traceFullPath`, and every call to
the file-system collaborator is counted so that "performs no filesystem
probing" claims can be stated as `probes = 0`.  Recursion in the source
(`traceDown`'s while loop, `traceUp`'s escalation, `traceFullPath`'s
parent-directory retry) is modelled with an explicit fuel parameter; fuel
exhaustion is the distinguished error `ResolveError.outOfFuel`, which the
retry logic propagates rather than catches, so it never masquerades as a
genuine resolution outcome.
-/

set_option autoImplicit false

namespace ModuleUtil

/-! ## Character-list string helpers

All string processing is done on `String.data` (lists of characters) so
that concrete claims evaluate by kernel reduction. -/

/-- `listIsPre pat l` is true when `pat` is an initial run of `l`. -/
def listIsPre : List Char → List Char → Bool
  | [], _ => true
  | _ :: _, [] => false
  | p :: ps, c :: cs => if p = c then listIsPre ps cs else false

/-- `listHasSub pat l` is true when `pat` occurs contiguously inside `l`
(JavaScript's `String.prototype.includes`). -/
def listHasSub (pat : List Char) : List Char → Bool
  | [] => pat.isEmpty
  | c :: rest => listIsPre pat (c :: rest) || listHasSub pat rest

/-- `strStartsWith s pat`: `s` begins with `pat`. -/
def strStartsWith (s pat : String) : Bool :=
  listIsPre pat.data s.data

/-- `strContains s pat`: `pat` occurs as a substring of `s`
(JavaScript `s.includes(pat)`). -/
def strContains (s pat : String) : Bool :=
  listHasSub pat.data s.data

/-- `strEndsWith s pat`: `s` ends with `pat`. -/
def strEndsWith (s pat : String) : Bool :=
  listIsPre pat.data.reverse s.data.reverse

/-- Split a character list on a separator character; the result always has
at least one (possibly empty) piece, like JavaScript's `split`. -/
def splitChar (sep : Char) : List Char → List (List Char)
  | [] => [[]]
  | c :: rest =>
    match splitChar sep rest with
    | [] => [[]]
    | h :: t => if c = sep then [] :: h :: t else (c :: h) :: t

/-- The `/`-separated raw segments of a path string. -/
def segsRaw (s : String) : List String :=
  (splitChar '/' s.data).map String.mk

/-- The non-empty `/`-separated segments of a path string: the "path
segment" notion used when the specification speaks of a name occurring *as
a path segment*. -/
def pathSegments (s : String) : List String :=
  (segsRaw s).filter (fun seg => seg ≠ "")

/-! ## Node.js `path.join` model

`joinPath parts` concatenates the non-empty parts with `/` and normalizes
the result exactly as `path.join` does on the inputs the resolver feeds it:
`.` and empty segments are dropped and `..` pops the preceding segment (at
the root of an absolute path a `..` is discarded; in a relative path
leading `..` segments are kept).  Trailing separators are dropped; the
resolver never distinguishes `/a` from `/a/`. -/

/-- Process one segment of a path being normalized onto a reversed
accumulator of already-normalized segments. -/
def normStep (isAbs : Bool) (acc : List String) (seg : String) : List String :=
  if seg = "" ∨ seg = "." then acc
  else if seg = ".." then
    match acc with
    | [] => if isAbs then [] else [".."]
    | a :: rest => if a = ".." then ".." :: a :: rest else rest
  else seg :: acc

/-- Normalize a segment list (see `normStep`). -/
def normSegs (isAbs : Bool) (segs : List String) : List String :=
  (segs.foldl (normStep isAbs) []).reverse

/-- Interleave path segments with `/`. -/
def joinSegs : List String → String
  | [] => ""
  | [s] => s
  | s :: rest => s ++ "/" ++ joinSegs rest

/-- Model of Node's `path.join` applied to a list of parts. -/
def joinPath (parts : List String) : String :=
  let nonempty := parts.filter (fun p => p ≠ "")
  let isAbs :=
    match nonempty with
    | [] => false
    | p :: _ => strStartsWith p "/"
  let segs := normSegs isAbs ((nonempty.map segsRaw).flatten)
  if isAbs then "/" ++ joinSegs segs
  else if segs = [] then "." else joinSegs segs

/-! ## The `IPathUtil` collaborator (spec section 6)

Modelled at its interface boundary: extension get/clear/set,
"has extension", "is a library specifier", filename extraction,
dot-prefixing of extensions, and absolute-path normalization. -/

/-- Scan a reversed path: if a `.` occurs before any `/`, return the
reversed remainder in front of it, otherwise `none`. -/
def extSplitRev : List Char → Option (List Char)
  | [] => none
  | c :: rest => if c = '/' then none else if c = '.' then some rest else extSplitRev rest

/-- Whether the final path segment carries an extension (a `.` that is not
the segment's first character), like Node's `path.extname(p) != ""`. -/
def hasExtension (p : String) : Bool :=
  match extSplitRev p.data.reverse with
  | none => false
  | some rest =>
    match rest with
    | [] => false
    | c :: _ => if c = '/' then false else true

/-- Strip the final extension from the last path segment, when present. -/
def clearExtension (p : String) : String :=
  match extSplitRev p.data.reverse with
  | none => p
  | some rest =>
    match rest with
    | [] => p
    | c :: _ => if c = '/' then p else String.mk rest.reverse

/-- Replace the extension of `p` with `ext` (already dot-prefixed). -/
def setExtension (p ext : String) : String :=
  clearExtension p ++ ext

/-- Final path segment (Node `path.basename`). -/
def takeFilename (p : String) : String :=
  ((segsRaw p).filter (fun s => s ≠ "")).getLastD ""

/-- Ensure an extension string carries its leading dot separator. -/
def dotExtension (ext : String) : String :=
  if strStartsWith ext "." then ext else "." ++ ext

/-- A specifier is classified a library specifier iff it does not begin
with a relative or absolute path marker (spec section 3). -/
def isLib (p : String) : Bool :=
  !(strStartsWith p "." || strStartsWith p "/")

/-- `IPathUtil.makeAbsolute(path, from, true)`: normalize `p` into an
absolute path relative to `fromDir`.  Under the flag the resolver always
passes, a bare library specifier (which is the resolver's cache key for the
library branch, spec section 4.1) is returned unchanged. -/
def makeAbsolute (p fromDir : String) : String :=
  if isLib p then p
  else if strStartsWith p "/" then joinPath [p]
  else joinPath [fromDir, p]

/-! ## Filesystem and the `IFileLoader` collaborator (spec section 6)

A filesystem is a fixed finite set of file paths and directory paths; the
contents of a parseable `package.json` file are carried as a structured
field map (the source reads the raw bytes with `loadSync` and parses them
with `JSON.parse`; only the parsed field map is observable). -/

/-- A parsed package manifest: an association list from field name to
string value, looked up first-match (a JavaScript object read). -/
def Manifest : Type := List (String × String)

/-- `packageJson[field]`: `some v` when the field is present (possibly with
an empty-string value), `none` when absent (JavaScript `undefined`). -/
def Manifest.get (m : Manifest) (field : String) : Option String :=
  match m.find? (fun e => e.1 = field) with
  | none => none
  | some e => some e.2

structure FileSystem where
  /-- Paths that exist as regular files. -/
  files : List String
  /-- Paths that exist as directories. -/
  dirs : List String
  /-- Parsed contents of the `package.json` files among `files`. -/
  manifests : List (String × Manifest)

/-- `IFileLoader.existsSync`: the path exists as a file or a directory. -/
def FileSystem.existsPath (fs : FileSystem) (p : String) : Bool :=
  p ∈ fs.files || p ∈ fs.dirs

/-- `IFileLoader.isDirectorySync`. -/
def FileSystem.isDir (fs : FileSystem) (p : String) : Bool :=
  p ∈ fs.dirs

/-- `IFileLoader.getWithFirstMatchedExtensionSync(path, allowed, excluded)`:
scan the allowed extensions in order, skip excluded ones, and return the
first `path ++ extension` existing as a file (spec section 4.3). -/
def getWithFirstMatchedExtensionSync (fs : FileSystem) (path : String)
    (allowed excluded : List String) : Option String :=
  (allowed.filter (fun e => e ∉ excluded)).findSome?
    (fun ext => if (path ++ ext) ∈ fs.files then some (path ++ ext) else none)

/-- Extension filter used by recursive directory listing: the filename ends
in an allowed extension and in no excluded extension. -/
def extensionMatches (allowed excluded : List String) (f : String) : Bool :=
  (allowed.any (fun e => listIsPre e.data.reverse f.data.reverse)) &&
  !(excluded.any (fun e => listIsPre e.data.reverse f.data.reverse))

/-- `IFileLoader.getAllInDirectorySync(from, allowed, excluded, true)`:
every file strictly below `fromDir` whose extension passes the filter, in
filesystem enumeration order. -/
def getAllInDirectorySync (fs : FileSystem) (fromDir : String)
    (allowed excluded : List String) : List String :=
  fs.files.filter (fun f =>
    strStartsWith f (if fromDir = "/" then "/" else fromDir ++ "/") &&
    extensionMatches allowed excluded f)

/-- `loadSync` + `JSON.parse` of a `package.json` file: the parsed field
map (an unparseable or unknown path reads as the empty object). -/
def parsePackageJson (fs : FileSystem) (p : String) : Manifest :=
  match fs.manifests.find? (fun e => e.1 = p) with
  | none => ([] : Manifest)
  | some e => e.2

/-! ## Configuration (`setOptions`, spec sections 3 and 6) -/

/-- `IModuleUtilOptions`: every field of the `Partial<>` options object may
be absent. -/
structure ModuleUtilOptions where
  extraExtensions : Option (List String) := none
  extraPackageFields : Option (List String) := none
  extraBuiltInModules : Option (List String) := none

/-- The option sets held by a `ModuleUtilHost` instance after
`setOptions`. -/
structure Config where
  allowedExtensions : List String
  excludedExtensions : List String
  packageFields : List String
  builtInModules : List String

def DEFAULT_LIBRARY_ENTRY : String := "index.js"

def DEFAULT_TYPES_FOLDER : String := "@types"

def DEFAULT_ALLOWED_EXTENSIONS : List String :=
  [".ts", ".tsx", ".js", ".mjs", ".json", ".d.ts"]

def DEFAULT_EXCLUDED_EXTENSIONS : List String := []

def DEFAULT_PACKAGE_FIELDS : List String :=
  ["module", "es2015", "jsnext:main", "main"]

def DEFAULT_BUILT_IN_MODULES : List String :=
  ["fs", "path", "buffer", "assert", "child_process", "cluster", "http",
   "https", "os", "crypto", "dns", "domain", "events", "net", "process",
   "punycode", "querystring", "readline", "repl", "stream",
   "string_decoder", "timers", "tls", "tty", "dgram", "url", "util",
   "module", "vm", "zlib", "constants"]

/-- A JavaScript `Set` built from a list: keep the first occurrence of each
element, in insertion order (`seen` accumulates what is already kept). -/
def jsSetAux (seen : List String) : List String → List String
  | [] => []
  | x :: xs => if x ∈ seen then jsSetAux seen xs else x :: jsSetAux (x :: seen) xs

/-- `new Set([...])` on a spread list. -/
def jsSetList (l : List String) : List String :=
  jsSetAux [] l

/-- The raw `extraExtensions` option (empty when options are absent). -/
def optExtraExtensions : Option ModuleUtilOptions → List String
  | none => []
  | some os => os.extraExtensions.getD []

/-- The raw `extraPackageFields` option. -/
def optExtraPackageFields : Option ModuleUtilOptions → List String
  | none => []
  | some os => os.extraPackageFields.getD []

/-- The raw `extraBuiltInModules` option. -/
def optExtraBuiltInModules : Option ModuleUtilOptions → List String
  | none => []
  | some os => os.extraBuiltInModules.getD []

/-- `takeExtraExtensions`: user extensions, each dot-prefixed. -/
def takeExtraExtensions (o : Option ModuleUtilOptions) : List String :=
  (optExtraExtensions o).map dotExtension

/-- `takeExtraPackageFields`. -/
def takeExtraPackageFields (o : Option ModuleUtilOptions) : List String :=
  optExtraPackageFields o

/-- `takeExtraBuiltInModules`. -/
def takeExtraBuiltInModules (o : Option ModuleUtilOptions) : List String :=
  optExtraBuiltInModules o

/-- `ModuleUtilHost.setOptions` (also run by the constructor): rebuild all
four collections from the built-in defaults extended by the options. -/
def setOptions (o : Option ModuleUtilOptions) : Config :=
  { allowedExtensions := jsSetList (DEFAULT_ALLOWED_EXTENSIONS ++ takeExtraExtensions o)
    excludedExtensions := jsSetList DEFAULT_EXCLUDED_EXTENSIONS
    packageFields := jsSetList (DEFAULT_PACKAGE_FIELDS ++ takeExtraPackageFields o)
    builtInModules := jsSetList (DEFAULT_BUILT_IN_MODULES ++ takeExtraBuiltInModules o) }

/-! ## Errors and cache -/

/-- The `ReferenceError`s the resolver can raise, by site, plus the
fuel-exhaustion artifact of the embedding. -/
inductive ResolveError where
  /-- `could not locate 'node_modules' in neither the local directory nor
  any parent directory` (from `resolveNodeModuleDirectory`). -/
  | dependencyRootNotFound (origFrom : String)
  /-- `could not find a package.json file within directory` (from
  `traceLib`). -/
  | packageJsonNotFound (directory : String)
  /-- `found no file on disk that matches the entry provided in a
  package.json file` (from `traceLib`). -/
  | packageEntryNotFound (entry : String)
  /-- `received a path to a package that doesn't exist ...` (from
  `traceUp`). -/
  | packageDoesNotExist (context : String)
  /-- `could not find a file on disk with the path` (from
  `findFullPath`). -/
  | fileNotFound (path : String)
  /-- Embedding artifact: the fuel bound was reached. -/
  | outOfFuel
  deriving DecidableEq, Repr

/-- The static `RESOLVED_PATHS` map, as an explicit association list (most
recent binding first, mirroring `Map.set`/`Map.get`). -/
def Cache : Type := List (String × String)

def cacheGet : Cache → String → Option String
  | [], _ => none
  | (k, v) :: rest, key => if k = key then some v else cacheGet rest key

def cacheSet (c : Cache) (k v : String) : Cache :=
  (k, v) :: c

/-! ## The resolution algorithm (`ModuleUtilHost`)

Each function returns its result together with the number of calls made to
the file-system collaborator (`existsSync`, `isDirectorySync`,
`getWithFirstMatchedExtensionSync`, `getAllInDirectorySync`, `loadSync`
each count one). -/

/-- Body of `traceDown`'s while loop.  `acc` is the mutable `targetPath`
variable: when the walk reaches `/` without a hit, the source returns the
most recently probed (and absent) candidate, not `null`. -/
def traceDownGo (fs : FileSystem) (target : String) :
    Nat → String → Option String → (Except ResolveError (Option String)) × Nat
  | 0, _, _ => (.error .outOfFuel, 0)
  | fuel + 1, cur, acc =>
    if cur = "/" then (.ok acc, 0)
    else
      let targetPath := joinPath [cur, target]
      if fs.existsPath targetPath then (.ok (some targetPath), 1)
      else
        let next := joinPath [cur, "../"]
        if strContains next "../" then (.ok none, 1)
        else
          let r := traceDownGo fs target fuel next (some targetPath)
          (r.1, 1 + r.2)

/-- `ModuleUtilHost.traceDown(target, current)`: walk from `current` toward
the filesystem root probing `current/target`. -/
def traceDown (fs : FileSystem) (target : String) (fuel : Nat) (current : String) :
    (Except ResolveError (Option String)) × Nat :=
  traceDownGo fs target fuel current none

/-- `ModuleUtilHost.resolveNodeModuleDirectory(libName, from, origFrom)`. -/
def resolveNodeModuleDirectory (fs : FileSystem) (fuel : Nat)
    (libName fromDir origFrom : String) : (Except ResolveError String) × Nat :=
  if strContains libName "node_modules" then (.ok libName, 0)
  else
    match traceDown fs "node_modules" fuel fromDir with
    | (.error e, n) => (.error e, n)
    | (.ok none, n) => (.error (.dependencyRootNotFound origFrom), n)
    | (.ok (some traced), n) => (.ok (joinPath [traced, libName]), n)

/-- `ModuleUtilHost.traceUp(target, from, origFrom,
lookingForParentNodeModules)`: directory-escalating search for a named
entry (spec section 4.5, `walkUpForNamedEntry`). -/
def traceUp (cfg : Config) (fs : FileSystem) :
    Nat → String → String → String → Bool → (Except ResolveError (Option String)) × Nat
  | 0, _, _, _, _ => (.error .outOfFuel, 0)
  | fuel + 1, target, fromDir, origFrom, lookingForParentNodeModules =>
    let withinBase := joinPath [fromDir, target]
    if fs.existsPath withinBase then (.ok (some withinBase), 1)
    else if !(fs.existsPath fromDir) then
      let file := takeFilename fromDir
      if fromDir = "/" ∨ fromDir = "/" ++ target then
        (.error (.packageDoesNotExist origFrom), 2)
      else if !lookingForParentNodeModules && !(strContains fromDir DEFAULT_TYPES_FOLDER) then
        let oneUp := joinPath [fromDir, "../", DEFAULT_TYPES_FOLDER, file]
        if oneUp = "/" ∨ oneUp = "/" ++ file then
          (.error (.packageDoesNotExist (origFrom ++ "/" ++ target)), 2)
        else
          let r := traceUp cfg fs fuel target oneUp origFrom false
          (r.1, 2 + r.2)
      else
        let oneUp := joinPath [fromDir, "../../", file]
        if oneUp = "/" ∨ oneUp = "/" ++ file then
          (.error (.packageDoesNotExist (origFrom ++ "/" ++ target)), 2)
        else
          let r := traceUp cfg fs fuel target oneUp origFrom true
          (r.1, 2 + r.2)
    else
      let files := getAllInDirectorySync fs fromDir cfg.allowedExtensions cfg.excludedExtensions
      (.ok (files.find? (fun f =>
        if hasExtension target then takeFilename f = target
        else cfg.allowedExtensions.any (fun ext => takeFilename f = setExtension target ext))), 3)

/-- `ModuleUtilHost.takeLibEntryPathFromPackage(packageJson,
packageJsonPath)`: scan the configured package fields, stopping at the
first *present* (non-`undefined`) value; an absent or empty-string result
falls back to the extension-cleared default library entry. -/
def takeLibEntryPathFromPackage (cfg : Config) (packageJson : Manifest)
    (packageJsonPath : String) : String :=
  let candidate := cfg.packageFields.findSome? (fun field => packageJson.get field)
  let candidate :=
    match candidate with
    | none => clearExtension DEFAULT_LIBRARY_ENTRY
    | some c => if c = "" then clearExtension DEFAULT_LIBRARY_ENTRY else c
  joinPath [packageJsonPath, "../", candidate]

/-- `ModuleUtilHost.traceLib(libName, from, origFrom)` (spec section 4.2,
the LibraryLocator). -/
def traceLib (cfg : Config) (fs : FileSystem) (fuel : Nat)
    (libName fromDir origFrom : String) : (Except ResolveError String) × Nat :=
  if libName ∈ cfg.builtInModules then (.ok libName, 0)
  else
    match resolveNodeModuleDirectory fs fuel libName fromDir origFrom with
    | (.error e, n1) => (.error e, n1)
    | (.ok directory, n1) =>
      match getWithFirstMatchedExtensionSync fs directory cfg.allowedExtensions cfg.excludedExtensions with
      | some scriptPath => (.ok scriptPath, n1 + 1)
      | none =>
        match traceUp cfg fs fuel "package.json" directory origFrom false with
        | (.error e, n2) => (.error e, n1 + 1 + n2)
        | (.ok none, n2) =>
          match getWithFirstMatchedExtensionSync fs
              (joinPath [directory, clearExtension DEFAULT_LIBRARY_ENTRY])
              cfg.allowedExtensions cfg.excludedExtensions with
          | some indexPath => (.ok indexPath, n1 + 1 + n2 + 1)
          | none => (.error (.packageJsonNotFound directory), n1 + 1 + n2 + 1)
        | (.ok (some packageJSONPath), n2) =>
          let entry := takeLibEntryPathFromPackage cfg (parsePackageJson fs packageJSONPath) packageJSONPath
          if hasExtension entry then (.ok entry, n1 + 1 + n2 + 1)
          else
            match getWithFirstMatchedExtensionSync fs entry cfg.allowedExtensions cfg.excludedExtensions with
            | some path => (.ok path, n1 + 1 + n2 + 1 + 1)
            | none => (.error (.packageEntryNotFound entry), n1 + 1 + n2 + 1 + 1)

/-- `ModuleUtilHost.indexExists(path)`. -/
def indexExists (cfg : Config) (fs : FileSystem) (path : String) : Option String × Nat :=
  (getWithFirstMatchedExtensionSync fs (joinPath [path, clearExtension DEFAULT_LIBRARY_ENTRY])
    cfg.allowedExtensions cfg.excludedExtensions, 1)

/-- `ModuleUtilHost.existsWithExtension(path)`. -/
def existsWithExtension (cfg : Config) (fs : FileSystem) (path : String) : Option String × Nat :=
  match getWithFirstMatchedExtensionSync fs path cfg.allowedExtensions cfg.excludedExtensions with
  | none =>
    let r := indexExists cfg fs path
    (r.1, 1 + r.2)
  | some existsPath => (some existsPath, 1)

/-- `ModuleUtilHost.existsWithClearedExtension(path)`. -/
def existsWithClearedExtension (cfg : Config) (fs : FileSystem) (path : String) : Option String × Nat :=
  match getWithFirstMatchedExtensionSync fs (clearExtension path) cfg.allowedExtensions cfg.excludedExtensions with
  | none =>
    let r := indexExists cfg fs path
    (r.1, 1 + r.2)
  | some existsPath => (some existsPath, 1)

/-- The extension-probing tail of `fileExists` shared by both guard
outcomes. -/
def fileExistsProbe (cfg : Config) (fs : FileSystem) (path : String) : Option String × Nat :=
  match existsWithClearedExtension cfg fs path with
  | (some withoutExtension, n1) => (some withoutExtension, n1)
  | (none, n1) =>
    let r := existsWithExtension cfg fs path
    (r.1, n1 + r.2)

/-- `ModuleUtilHost.fileExists(path)` (JavaScript `&&` short-circuits:
`existsSync` runs only when `isDirectorySync` returned false). -/
def fileExistsFn (cfg : Config) (fs : FileSystem) (path : String) : Option String × Nat :=
  if fs.isDir path then
    let r := fileExistsProbe cfg fs path
    (r.1, 1 + r.2)
  else if fs.existsPath path then (some path, 2)
  else
    let r := fileExistsProbe cfg fs path
    (r.1, 2 + r.2)

/-- `ModuleUtilHost.findFullPath(absolutePath)`. -/
def findFullPath (cfg : Config) (fs : FileSystem) (absolutePath : String) :
    (Except ResolveError String) × Nat :=
  match fileExistsFn cfg fs absolutePath with
  | (none, n) => (.error (.fileNotFound absolutePath), n)
  | (some path, n) => (.ok path, n)

/-- The tail of `traceFullPath` after the library branch: make the path
absolute, consult the cache, and otherwise trace and cache the full
path. -/
def afterLib (cfg : Config) (fs : FileSystem) (filePath fromDir : String)
    (cache : Cache) (n0 : Nat) : (Except ResolveError String) × Cache × Nat :=
  let absolute := makeAbsolute filePath fromDir
  match cacheGet cache absolute with
  | some cachedFullPath => (.ok cachedFullPath, cache, n0)
  | none =>
    match findFullPath cfg fs absolute with
    | (.ok tracedFullPath, n1) => (.ok tracedFullPath, cacheSet cache absolute tracedFullPath, n0 + n1)
    | (.error e, n1) => (.error e, cache, n0 + n1)

/-- `ModuleUtilHost.traceFullPath(filePath, from, origFrom)`: the
orchestrator, with the static `RESOLVED_PATHS` map threaded as `cache`.
A failed library trace at `from ≠ "/"` is retried from the parent
directory; the embedding's `outOfFuel` artifact is propagated instead of
being treated as a caught exception. -/
def traceFullPath (cfg : Config) (fs : FileSystem) :
    Nat → String → String → String → Cache → (Except ResolveError String) × Cache × Nat
  | 0, _, _, _, cache => (.error .outOfFuel, cache, 0)
  | fuel + 1, filePath, fromDir, origFrom, cache =>
    if isLib filePath then
      match cacheGet cache filePath with
      | some cachedLib => (.ok cachedLib, cache, 0)
      | none =>
        match traceLib cfg fs fuel filePath fromDir origFrom with
        | (.ok tracedLib, n) => afterLib cfg fs filePath fromDir (cacheSet cache filePath tracedLib) n
        | (.error e, n) =>
          if e = .outOfFuel then (.error e, cache, n)
          else if fromDir ≠ "/" then
            let r := traceFullPath cfg fs fuel filePath (joinPath [fromDir, "../"]) origFrom cache
            (r.1, r.2.1, n + r.2.2)
          else (.error e, cache, n)
    else afterLib cfg fs filePath fromDir cache 0

/-- `ModuleUtilHost.resolvePath(filePath, from)` (the public entry
point). -/
def resolvePath (cfg : Config) (fs : FileSystem) (fuel : Nat)
    (filePath fromDir : String) (cache : Cache) : (Except ResolveError String) × Cache × Nat :=
  traceFullPath cfg fs fuel filePath fromDir fromDir cache

/-! ## Concrete scenario filesystems

The finite directory trees used by the scenario claims, their
counterexamples and their witnesses. -/

/-- The C1 scenario filesystem:
`/project/node_modules/left-pad/package.json` with `{"main": "index.js"}`
and `/project/node_modules/left-pad/index.js`. -/
def leftPadFs : FileSystem :=
  { files := ["/project/node_modules/left-pad/package.json",
              "/project/node_modules/left-pad/index.js"]
    dirs := ["/", "/project", "/project/node_modules", "/project/node_modules/left-pad"]
    manifests := [("/project/node_modules/left-pad/package.json", [("main", "index.js")])] }

/-- Filesystem for the C2 counterexample (contents are irrelevant: the
failure is that the filesystem is probed at all). -/
def claim2Fs : FileSystem :=
  { files := [], dirs := [], manifests := [] }

/-- Filesystem for the C2 witness: directory contents are arbitrary (a
file `fs.ts` even exists where a probe might look). -/
def claim2WitnessFs : FileSystem :=
  { files := ["/any/fs.ts"], dirs := ["/", "/any"], manifests := [] }

/-- Filesystem for the C3 witness: the project file `/d/f.ts`. -/
def claim3Fs : FileSystem :=
  { files := ["/d/f.ts"], dirs := ["/", "/d"], manifests := [] }

/-- Filesystem for the C5 counterexample: no `node_modules` anywhere, but
a project subdirectory `/project/left-pad` carrying its own manifest —
exactly the layout the `traceUp` escalation chain can stumble into. -/
def claim5EscalationFs : FileSystem :=
  { files := ["/project/left-pad/package.json", "/project/left-pad/index.js"]
    dirs := ["/", "/project", "/project/left-pad"]
    manifests := [("/project/left-pad/package.json", [("main", "index.js")])] }

/-- Filesystem for the amended C5: only the ancestor chain of the starting
directory exists, so neither the dependency root nor any manifest can be
found anywhere. -/
def claim5BareFs : FileSystem :=
  { files := [], dirs := ["/", "/project"], manifests := [] }

/-- Filesystem for C6: a library whose manifest entry `main.coffee`
carries an extension the resolver does not recognize, and which does not
exist on disk. -/
def claim6Fs : FileSystem :=
  { files := ["/p/node_modules/lib/package.json"]
    dirs := ["/", "/p", "/p/node_modules", "/p/node_modules/lib"]
    manifests := [("/p/node_modules/lib/package.json", [("main", "main.coffee")])] }

/-- Filesystem for C7: dependency-root discovery from `/project` would
actually succeed, were it attempted. -/
def claim7Fs : FileSystem :=
  { files := [], dirs := ["/", "/project", "/project/node_modules"], manifests := [] }

/-- Filesystem for the C10 witness: the project file `/d/g.ts`. -/
def claim10Fs : FileSystem :=
  { files := ["/d/g.ts"], dirs := ["/", "/d"], manifests := [] }

/-! ## General lemmas -/

theorem cacheGet_cacheSet_same (c : Cache) (k v : String) :
    cacheGet (cacheSet c k v) k = some v := by
  simp [cacheGet, cacheSet]

theorem makeAbsolute_of_isLib (p fromDir : String) (h : isLib p = true) :
    makeAbsolute p fromDir = p := by
  simp [makeAbsolute, h]

/-- Whatever path `afterLib` returns successfully is recorded in the
returned cache under the absolute-path key. -/
theorem afterLib_ok_cached (cfg : Config) (fs : FileSystem)
    (filePath fromDir : String) (cache : Cache) (n0 : Nat)
    (p : String) (c' : Cache) (n : Nat)
    (h : afterLib cfg fs filePath fromDir cache n0 = (.ok p, c', n)) :
    cacheGet c' (makeAbsolute filePath fromDir) = some p := by
  simp only [afterLib] at h
  cases hg : cacheGet cache (makeAbsolute filePath fromDir) with
  | some cached =>
    rw [hg] at h
    cases h
    exact hg
  | none =>
    rw [hg] at h
    cases hf : findFullPath cfg fs (makeAbsolute filePath fromDir) with
    | mk r m =>
      rw [hf] at h
      cases r with
      | ok traced =>
        simp at h
        obtain ⟨h1, h2, h3⟩ := h
        rw [← h2, ← h1]
        exact cacheGet_cacheSet_same _ _ _
      | error e => simp at h

/-- Whatever path `traceFullPath` returns successfully is recorded in the
returned cache: under the raw specifier for a library specifier, and under
the absolutized path otherwise. -/
theorem traceFullPath_ok_cached (cfg : Config) (fs : FileSystem) :
    ∀ (fuel : Nat) (filePath fromDir origFrom : String) (cache : Cache)
      (p : String) (c' : Cache) (n : Nat),
      traceFullPath cfg fs fuel filePath fromDir origFrom cache = (.ok p, c', n) →
      cacheGet c' (if isLib filePath then filePath else makeAbsolute filePath fromDir) = some p := by
  intro fuel
  induction fuel with
  | zero =>
    intro filePath fromDir origFrom cache p c' n h
    simp [traceFullPath] at h
  | succ k ih =>
    intro filePath fromDir origFrom cache p c' n h
    rw [traceFullPath] at h
    by_cases hl : isLib filePath
    · rw [if_pos hl] at h
      rw [if_pos hl]
      cases hg : cacheGet cache filePath with
      | some cached =>
        rw [hg] at h
        cases h
        exact hg
      | none =>
        rw [hg] at h
        cases htl : traceLib cfg fs k filePath fromDir origFrom with
        | mk r m =>
          rw [htl] at h
          cases r with
          | ok traced =>
            have := afterLib_ok_cached cfg fs filePath fromDir
              (cacheSet cache filePath traced) m p c' n h
            rwa [makeAbsolute_of_isLib _ _ hl] at this
          | error e =>
            simp only at h
            by_cases he : e = ResolveError.outOfFuel
            · rw [if_pos he] at h
              cases h
            · rw [if_neg he] at h
              by_cases hd : fromDir ≠ "/"
              · rw [if_pos hd] at h
                rcases hrec : traceFullPath cfg fs k filePath (joinPath [fromDir, "../"]) origFrom cache with ⟨r1, c2, n2⟩
                rw [hrec] at h
                simp at h
                obtain ⟨h1, h2, h3⟩ := h
                have := ih filePath (joinPath [fromDir, "../"]) origFrom cache p c' n2
                rw [if_pos hl] at this
                apply this
                rw [hrec, h1, h2]
              · rw [if_neg hd] at h
                cases h
    · rw [if_neg hl] at h
      rw [if_neg hl]
      exact afterLib_ok_cached cfg fs filePath fromDir cache 0 p c' n h

/-- A resolution whose cache key is already bound returns the cached value
immediately: unchanged cache and zero collaborator calls. -/
theorem traceFullPath_cache_hit (cfg : Config) (fs : FileSystem) (m : Nat)
    (filePath fromDir origFrom : String) (c : Cache) (p : String)
    (h : cacheGet c (if isLib filePath then filePath else makeAbsolute filePath fromDir) = some p) :
    traceFullPath cfg fs (m + 1) filePath fromDir origFrom c = (.ok p, c, 0) := by
  rw [traceFullPath]
  by_cases hl : isLib filePath
  · rw [if_pos hl] at h
    simp [hl, h]
  · rw [if_neg hl] at h
    rw [if_neg hl]
    simp [afterLib, h]

/-! ## Claim C1 — the library resolution scenario -/

/-- Claim C1: on a filesystem containing
`/project/node_modules/left-pad/package.json` with `{"main": "index.js"}`
and `/project/node_modules/left-pad/index.js`,
`resolvePath("left-pad", "/project")` returns
`/project/node_modules/left-pad/index.js`. -/
theorem claim1_library_scenario :
    (resolvePath (setOptions none) leftPadFs 10 "left-pad" "/project" []).1
      = .ok "/project/node_modules/left-pad/index.js" := by
  rfl

/-! ## Claim C3 — idempotence through the resolution cache -/

/-- Claim C3: on a fixed filesystem, when a call to `resolvePath` returns a
path `p`, an identical second call (any fuel) returns the same `p`, leaves
the cache unchanged, and makes zero calls to the file-system collaborator:
the result is served from the resolution cache. -/
theorem claim3_idempotent_second_call_cached (cfg : Config) (fs : FileSystem)
    (fuel : Nat) (specifier fromDir : String) (cache : Cache)
    (p : String) (c1 : Cache) (n : Nat)
    (h : resolvePath cfg fs fuel specifier fromDir cache = (.ok p, c1, n)) (m : Nat) :
    resolvePath cfg fs (m + 1) specifier fromDir c1 = (.ok p, c1, 0) := by
  unfold resolvePath at h ⊢
  exact traceFullPath_cache_hit cfg fs m specifier fromDir fromDir c1 p
    (traceFullPath_ok_cached cfg fs fuel specifier fromDir fromDir cache p c1 n h)

/-- Witness for C3 at a concrete input: after `./f` resolves from `/d` to
`/d/f.ts` (caching it under `/d/f`), the repeated call returns the cached
path with zero probes. -/
theorem claim3_witness :
    resolvePath (setOptions none) claim3Fs 5 "./f" "/d" [("/d/f", "/d/f.ts")]
      = (.ok "/d/f.ts", [("/d/f", "/d/f.ts")], 0) :=
  claim3_idempotent_second_call_cached (setOptions none) claim3Fs 5 "./f" "/d" []
    "/d/f.ts" [("/d/f", "/d/f.ts")] 3 (by rfl) 4

/-! ## Claim C10 — the cache is shared across resolver instances -/

/-- Claim C10: the `RESOLVED_PATHS` cache is static and process-wide: after
any instance (any configuration) resolves and caches a key, a separately
constructed instance — built by `setOptions` from arbitrary options, i.e.
not starting from an empty cache — returns the cached value for the same
request without any filesystem access. -/
theorem claim10_cache_shared_across_instances (cfg : Config)
    (o2 : Option ModuleUtilOptions) (fs : FileSystem)
    (fuel : Nat) (specifier fromDir : String) (cache : Cache)
    (p : String) (c1 : Cache) (n : Nat)
    (h : resolvePath cfg fs fuel specifier fromDir cache = (.ok p, c1, n)) (m : Nat) :
    resolvePath (setOptions o2) fs (m + 1) specifier fromDir c1 = (.ok p, c1, 0) := by
  unfold resolvePath at h ⊢
  exact traceFullPath_cache_hit (setOptions o2) fs m specifier fromDir fromDir c1 p
    (traceFullPath_ok_cached cfg fs fuel specifier fromDir fromDir cache p c1 n h)

/-- Witness for C10 at a concrete input: a first instance (default options)
resolves `./g` from `/d`; a second instance constructed with different
options serves the same request from the shared cache with zero probes. -/
theorem claim10_witness :
    resolvePath (setOptions (some ⟨none, none, some ["custom-builtin"]⟩)) claim10Fs 7
      "./g" "/d" [("/d/g", "/d/g.ts")]
      = (.ok "/d/g.ts", [("/d/g", "/d/g.ts")], 0) :=
  claim10_cache_shared_across_instances (setOptions none)
    (some ⟨none, none, some ["custom-builtin"]⟩) claim10Fs 5 "./g" "/d" []
    "/d/g.ts" [("/d/g", "/d/g.ts")] 3 (by rfl) 6

/-! ## Claim C2 — built-in module short-circuit -/

/-- Counterexample to C2 as stated: `./x` can be made a member of the
configured `builtInModules` set through `extraBuiltInModules`, yet
`resolvePath("./x", "/d")` does not return it unchanged and probes the
filesystem six times — the built-in check is only reached for specifiers
classified as library specifiers. -/
theorem claim2_counterexample :
    "./x" ∈ (setOptions (some ⟨none, none, some ["./x"]⟩)).builtInModules ∧
    resolvePath (setOptions (some ⟨none, none, some ["./x"]⟩)) claim2Fs 10 "./x" "/d" []
      = (.error (.fileNotFound "/d/x"), [], 6) := by
  exact ⟨by decide, by rfl⟩

/-- Claim C2 (amended: the specifier must additionally be classified as a
library specifier, i.e. not begin with a relative or absolute path
marker): for every configuration, directory and filesystem, resolving a
built-in module specifier returns it unchanged with zero calls to the
file-system collaborator, from any cache state that does not already bind
the specifier to something else. -/
theorem claim2_builtin_short_circuit (o : Option ModuleUtilOptions)
    (fs : FileSystem) (fuel : Nat) (specifier fromDir : String) (cache : Cache)
    (hlib : isLib specifier = true)
    (hmem : specifier ∈ (setOptions o).builtInModules)
    (hcache : cacheGet cache specifier = none ∨ cacheGet cache specifier = some specifier) :
    (resolvePath (setOptions o) fs (fuel + 1) specifier fromDir cache).1 = .ok specifier ∧
    (resolvePath (setOptions o) fs (fuel + 1) specifier fromDir cache).2.2 = 0 := by
  unfold resolvePath
  rw [traceFullPath, if_pos hlib]
  rcases hcache with hc | hc
  · rw [hc]
    rw [show traceLib (setOptions o) fs fuel specifier fromDir fromDir = (.ok specifier, 0) by
      rw [traceLib, if_pos hmem]]
    simp [afterLib, makeAbsolute_of_isLib _ _ hlib, cacheGet_cacheSet_same]
  · rw [hc]
    exact ⟨rfl, rfl⟩

/-- Witness for C2 at a concrete input: `resolvePath("fs", "/any")` under
default options returns `fs` with zero filesystem probes. -/
theorem claim2_witness :
    (resolvePath (setOptions none) claim2WitnessFs 3 "fs" "/any" []).1 = .ok "fs" ∧
    (resolvePath (setOptions none) claim2WitnessFs 3 "fs" "/any" []).2.2 = 0 :=
  claim2_builtin_short_circuit none claim2WitnessFs 2 "fs" "/any" []
    (by decide) (by decide) (Or.inl rfl)

/-! ## Claim C4 — package-field scanning -/

theorem findSome?_append_of_forall_none {α β : Type} (f : α → Option β) :
    ∀ (pre rest : List α), (∀ g ∈ pre, f g = none) →
      List.findSome? f (pre ++ rest) = List.findSome? f rest := by
  intro pre
  induction pre with
  | nil => intro rest _; rfl
  | cons a as ih =>
    intro rest h
    have ha : f a = none := h a (by simp)
    rw [List.cons_append, List.findSome?_cons, ha]
    exact ih rest (fun g hg => h g (by simp [hg]))

/-- Counterexample to C4 as stated: with default fields, the manifest
`{module: "", main: "./index.js"}` does *not* resolve through `main` (which
would give `/x/index.js`); the scan stops at the present-but-empty `module`
field and falls back to the default `index` entry, yielding `/x/index`. -/
theorem claim4_counterexample :
    takeLibEntryPathFromPackage (setOptions none)
        [("module", ""), ("main", "./index.js")] "/x/package.json"
      = "/x/index" ∧
    takeLibEntryPathFromPackage (setOptions none)
        [("module", ""), ("main", "./index.js")] "/x/package.json"
      ≠ joinPath ["/x/package.json", "../", "./index.js"] := by
  exact ⟨by rfl, by decide⟩

/-- Claim C4 (amended): entry selection scans the configured package
fields in priority order and stops at the first field that is *present*,
even when its value is the empty string; a present-but-empty value (like an
entirely absent one) falls back to the extension-cleared default library
entry (`index`) rather than continuing to later fields.  In particular
`{module: "", main: "./index.js"}` yields the default `index` entry, not
the `main` entry. -/
theorem claim4_first_present_field_wins (cfg : Config) (pre post : List String)
    (field v : String) (pj : Manifest) (packageJsonPath : String)
    (hfields : cfg.packageFields = pre ++ field :: post)
    (hpre : ∀ g ∈ pre, pj.get g = none)
    (hfield : pj.get field = some v) :
    takeLibEntryPathFromPackage cfg pj packageJsonPath
      = joinPath [packageJsonPath, "../",
          if v = "" then clearExtension DEFAULT_LIBRARY_ENTRY else v] := by
  rw [takeLibEntryPathFromPackage, hfields,
    findSome?_append_of_forall_none (fun f => pj.get f) pre (field :: post) hpre,
    List.findSome?_cons, hfield]

/-- Witness for C4 at the fallthrough scenario's input: with default
options, `pre = []`, the first present field is `module` with value `""`,
and the selected entry is the default `index` joined beside the manifest. -/
theorem claim4_witness :
    takeLibEntryPathFromPackage (setOptions none)
        [("module", ""), ("main", "./index.js")] "/x/package.json"
      = joinPath ["/x/package.json", "../",
          if "" = "" then clearExtension DEFAULT_LIBRARY_ENTRY else ""] :=
  claim4_first_present_field_wins (setOptions none) []
    ["es2015", "jsnext:main", "main"] "module" ""
    [("module", ""), ("main", "./index.js")] "/x/package.json"
    (by rfl) (by intro g hg; cases hg) (by rfl)

/-! ## Claim C5 — missing dependency root -/

/-- Counterexample to C5 as stated: on a filesystem in which no existing
path mentions `node_modules` at all (so no ancestor of `/project` contains
a dependency root), resolving the non-builtin library `left-pad` from
`/project` does *not* fail with `DependencyRootNotFound` — the
package-manifest escalation search finds `/project/left-pad/package.json`
and resolution succeeds. -/
theorem claim5_counterexample :
    (resolvePath (setOptions none) claim5EscalationFs 10 "left-pad" "/project" []).1
      = .ok "/project/left-pad/index.js" ∧
    (claim5EscalationFs.files ++ claim5EscalationFs.dirs).all
      (fun p => !(strContains p "node_modules")) = true := by
  exact ⟨by rfl, by decide⟩

/-- Claim C5 (amended): resolving a non-builtin library specifier without
`node_modules` in its name fails with the `DependencyRootNotFound`
reference error when no ancestor of the starting directory contains a
`node_modules` directory *and* the filesystem offers the escalating
manifest search nothing else to find — concretely, when the only existing
entries are the ancestor directories of the starting directory.  (The
error is raised at the root after the parent-directory retries, and it
names the original starting directory.) -/
theorem claim5_dependency_root_not_found :
    resolvePath (setOptions none) claim5BareFs 10 "lodash" "/project" []
      = (.error (.dependencyRootNotFound "/project"), [], 10) := by
  rfl

/-! ## Claim C6 — manifest entries carrying an extension -/

/-- Counterexample to C6 as stated: the manifest entry `main.coffee` does
not carry a *recognized* extension (`.coffee` is not among the allowed
extensions) and the file does not exist, yet library resolution returns it
as-is instead of probing it against the allowed-extension list. -/
theorem claim6_counterexample :
    (traceLib (setOptions none) claim6Fs 10 "lib" "/p" "/p").1
      = .ok "/p/node_modules/lib/main.coffee" ∧
    ("/p/node_modules/lib/main.coffee" ∈ claim6Fs.files → False) ∧
    (setOptions none).allowedExtensions.all
      (fun e => !(strEndsWith "/p/node_modules/lib/main.coffee" e)) = true := by
  exact ⟨by rfl, by decide, by decide⟩

/-- Claim C6 (amended): during library resolution, an entry path obtained
from the package manifest is returned as-is — without any further
collaborator call, in particular without verifying that the file exists —
whenever it carries *any* extension at all (recognized or not); only an
extensionless entry costs one further probe against the allowed-extension
list. -/
theorem claim6_entry_extension_short_circuit (cfg : Config) (fs : FileSystem)
    (fuel : Nat) (libName fromDir origFrom directory packageJSONPath entry : String)
    (n1 n2 : Nat)
    (hb : libName ∉ cfg.builtInModules)
    (h1 : resolveNodeModuleDirectory fs fuel libName fromDir origFrom = (.ok directory, n1))
    (h2 : getWithFirstMatchedExtensionSync fs directory cfg.allowedExtensions cfg.excludedExtensions = none)
    (h3 : traceUp cfg fs fuel "package.json" directory origFrom false = (.ok (some packageJSONPath), n2))
    (hentry : entry = takeLibEntryPathFromPackage cfg (parsePackageJson fs packageJSONPath) packageJSONPath) :
    (hasExtension entry = true →
      traceLib cfg fs fuel libName fromDir origFrom = (.ok entry, n1 + 1 + n2 + 1)) ∧
    (hasExtension entry = false →
      (traceLib cfg fs fuel libName fromDir origFrom).2 = n1 + 1 + n2 + 1 + 1) := by
  rw [traceLib, if_neg hb, h1]
  simp only [h2, h3, ← hentry]
  constructor
  · intro hx
    rw [if_pos hx]
  · intro hx
    rw [if_neg (by rw [hx]; exact Bool.false_ne_true)]
    cases getWithFirstMatchedExtensionSync fs entry cfg.allowedExtensions cfg.excludedExtensions with
    | none => rfl
    | some path => rfl

/-- Witness for C6 at a concrete input: the `main.coffee` entry of
`claim6Fs` is returned as-is after exactly the four probes leading up to
the manifest read. -/
theorem claim6_witness :
    traceLib (setOptions none) claim6Fs 10 "lib" "/p" "/p"
      = (.ok "/p/node_modules/lib/main.coffee", 1 + 1 + 1 + 1) :=
  (claim6_entry_extension_short_circuit (setOptions none) claim6Fs 10 "lib" "/p" "/p"
    "/p/node_modules/lib" "/p/node_modules/lib/package.json"
    "/p/node_modules/lib/main.coffee" 1 1
    (by decide) (by rfl) (by rfl) (by rfl) (by rfl)).1 (by rfl)

/-! ## Claim C7 — "already rooted" library specifiers -/

/-- A successful `node_modules` walk always costs at least one probe: the
accumulator starts empty, so a `some` result can only come from a probe. -/
theorem traceDownGo_some_from_none_probes (fs : FileSystem) (target : String)
    (fuel : Nat) (cur t : String) (n : Nat)
    (h : traceDownGo fs target fuel cur none = (.ok (some t), n)) : 1 ≤ n := by
  cases fuel with
  | zero => simp [traceDownGo] at h
  | succ k =>
    rw [traceDownGo] at h
    by_cases h0 : cur = "/"
    · rw [if_pos h0] at h
      cases h
    · rw [if_neg h0] at h
      by_cases h1 : (fs.existsPath (joinPath [cur, target]) : Prop)
      · rw [if_pos h1] at h
        cases h
        exact Nat.le_refl 1
      · rw [if_neg h1] at h
        by_cases h2 : (strContains (joinPath [cur, "../"]) "../" : Prop)
        · rw [if_pos h2] at h
          cases h
        · rw [if_neg h2] at h
          have : n = 1 + (traceDownGo fs target k (joinPath [cur, "../"])
              (some (joinPath [cur, target]))).2 := (congrArg Prod.snd h).symm
          omega

/-- Counterexample to C7 as stated: `xnode_modulesy` contains
`node_modules` as a substring but *not* as a path segment, yet
`resolveNodeModuleDirectory` treats it as already rooted — it is returned
verbatim with zero probes, skipping discovery entirely. -/
theorem claim7_counterexample :
    strContains "xnode_modulesy" "node_modules" = true ∧
    ("node_modules" ∈ pathSegments "xnode_modulesy" → False) ∧
    resolveNodeModuleDirectory claim7Fs 10 "xnode_modulesy" "/project" "/project"
      = (.ok "xnode_modulesy", 0) := by
  exact ⟨by decide, by decide, by rfl⟩

/-- Claim C7 (amended): a library specifier is treated as already rooted —
used verbatim as the library directory with dependency-root discovery
skipped entirely (zero filesystem probes) — if and only if it contains the
string `node_modules` as a substring, not necessarily as a whole path
segment. -/
theorem claim7_rooted_iff_substring (fs : FileSystem) (fuel : Nat)
    (libName fromDir origFrom : String) :
    resolveNodeModuleDirectory fs fuel libName fromDir origFrom = (.ok libName, 0)
      ↔ strContains libName "node_modules" = true := by
  constructor
  · intro h
    by_contra hc
    rw [resolveNodeModuleDirectory, if_neg hc] at h
    rcases hd : traceDown fs "node_modules" fuel fromDir with ⟨r, n⟩
    rw [hd] at h
    cases r with
    | error e => cases h
    | ok o =>
      cases o with
      | none => cases h
      | some traced =>
        have hn : 1 ≤ n := traceDownGo_some_from_none_probes fs "node_modules" fuel fromDir traced n hd
        have : n = 0 := (congrArg Prod.snd h)
        omega
  · intro h
    rw [resolveNodeModuleDirectory, if_pos h]

/-- Witness for C7 at a concrete input: a specifier containing a
`node_modules` segment is returned verbatim without discovery, even though
discovery from `/project` would have succeeded. -/
theorem claim7_witness :
    resolveNodeModuleDirectory claim7Fs 5 "a/node_modules/b" "/project" "/project"
      = (.ok "a/node_modules/b", 0) :=
  (claim7_rooted_iff_substring claim7Fs 5 "a/node_modules/b" "/project" "/project").mpr (by decide)

/-! ## Claims C8 and C9 — configuration -/

theorem mem_jsSetAux (l : List String) :
    ∀ (seen : List String) (x : String), x ∈ jsSetAux seen l ↔ (x ∈ l ∧ x ∉ seen) := by
  induction l with
  | nil => intro seen x; simp [jsSetAux]
  | cons a as ih =>
    intro seen x
    by_cases ha : a ∈ seen
    · rw [jsSetAux, if_pos ha, ih]
      constructor
      · rintro ⟨h1, h2⟩
        exact ⟨List.mem_cons_of_mem a h1, h2⟩
      · rintro ⟨h1, h2⟩
        rcases List.mem_cons.mp h1 with h1 | h1
        · exact absurd (h1 ▸ ha) h2
        · exact ⟨h1, h2⟩
    · rw [jsSetAux, if_neg ha]
      constructor
      · intro hx
        rcases List.mem_cons.mp hx with h1 | h1
        · subst h1
          exact ⟨List.mem_cons_self _ _, ha⟩
        · have hh := (ih (a :: seen) x).mp h1
          exact ⟨List.mem_cons_of_mem a hh.1,
            fun hmem => hh.2 (List.mem_cons_of_mem a hmem)⟩
      · rintro ⟨h1, h2⟩
        rcases List.mem_cons.mp h1 with h1 | h1
        · subst h1
          exact List.mem_cons_self _ _
        · by_cases hx : x = a
          · subst hx
            exact List.mem_cons_self _ _
          · exact List.mem_cons_of_mem a ((ih (a :: seen) x).mpr
              ⟨h1, fun hmem => (List.mem_cons.mp hmem).elim hx h2⟩)

theorem jsSetAux_append_of_nodup :
    ∀ (l seen r : List String), l.Nodup → (∀ x ∈ l, x ∉ seen) →
      ∃ t, jsSetAux seen (l ++ r) = l ++ t := by
  intro l
  induction l with
  | nil => intro seen r _ _; exact ⟨jsSetAux seen r, rfl⟩
  | cons a as ih =>
    intro seen r hnd hs
    have ha : a ∉ seen := hs a (List.mem_cons_self _ _)
    obtain ⟨t, ht⟩ := ih (a :: seen) r (List.Nodup.of_cons hnd)
      (fun x hx => by
        intro hmem
        rcases List.mem_cons.mp hmem with h1 | h1
        · exact (List.Nodup.not_mem (l := as) (by simpa using hnd)) (h1 ▸ hx)
        · exact hs x (List.mem_cons_of_mem a hx) h1)
    refine ⟨t, ?_⟩
    rw [List.cons_append, jsSetAux, if_neg ha, ht, List.cons_append]

theorem dotExtension_dot_prefixed (e : String) :
    strStartsWith (dotExtension e) "." = true := by
  rw [dotExtension]
  by_cases h : (strStartsWith e "." : Prop)
  · rwa [if_pos h]
  · rw [if_neg h]
    show listIsPre ".".data ("." ++ e).data = true
    rw [String.data_append]
    simp [listIsPre]

/-- Claim C8: configuration extends but never replaces the defaults.  For
every options argument: the allowed-extension collection is the default
extensions followed (as a prefix) by further entries; its members are
exactly the defaults together with the dot-normalized extra extensions,
and every member carries a leading dot; the package-field collection is
the default fields followed by further entries, with members exactly the
defaults together with the extra fields; and the built-in-module set is
the union of the defaults with the extra names. -/
theorem claim8_options_extend_defaults (o : Option ModuleUtilOptions) :
    (∃ t, (setOptions o).allowedExtensions = DEFAULT_ALLOWED_EXTENSIONS ++ t) ∧
    (∀ x, x ∈ (setOptions o).allowedExtensions ↔
      (x ∈ DEFAULT_ALLOWED_EXTENSIONS ∨ ∃ e ∈ optExtraExtensions o, x = dotExtension e)) ∧
    (∀ x ∈ (setOptions o).allowedExtensions, strStartsWith x "." = true) ∧
    (∃ t, (setOptions o).packageFields = DEFAULT_PACKAGE_FIELDS ++ t) ∧
    (∀ x, x ∈ (setOptions o).packageFields ↔
      (x ∈ DEFAULT_PACKAGE_FIELDS ∨ x ∈ optExtraPackageFields o)) ∧
    (∀ x, x ∈ (setOptions o).builtInModules ↔
      (x ∈ DEFAULT_BUILT_IN_MODULES ∨ x ∈ optExtraBuiltInModules o)) := by
  have hmemA : ∀ x, x ∈ (setOptions o).allowedExtensions ↔
      (x ∈ DEFAULT_ALLOWED_EXTENSIONS ∨ ∃ e ∈ optExtraExtensions o, x = dotExtension e) := by
    intro x
    show x ∈ jsSetAux [] (DEFAULT_ALLOWED_EXTENSIONS ++ takeExtraExtensions o) ↔ _
    rw [mem_jsSetAux]
    simp [takeExtraExtensions, eq_comm]
  refine ⟨?_, hmemA, ?_, ?_, ?_, ?_⟩
  · exact jsSetAux_append_of_nodup DEFAULT_ALLOWED_EXTENSIONS [] _
      (by decide) (by simp)
  · intro x hx
    rcases (hmemA x).mp hx with h | ⟨e, _, he⟩
    · have hall : ∀ y ∈ DEFAULT_ALLOWED_EXTENSIONS, strStartsWith y "." = true := by decide
      exact hall x h
    · rw [he]
      exact dotExtension_dot_prefixed e
  · exact jsSetAux_append_of_nodup DEFAULT_PACKAGE_FIELDS [] _
      (by decide) (by simp)
  · intro x
    show x ∈ jsSetAux [] (DEFAULT_PACKAGE_FIELDS ++ takeExtraPackageFields o) ↔ _
    rw [mem_jsSetAux]
    simp [takeExtraPackageFields]
  · intro x
    show x ∈ jsSetAux [] (DEFAULT_BUILT_IN_MODULES ++ takeExtraBuiltInModules o) ↔ _
    rw [mem_jsSetAux]
    simp [takeExtraBuiltInModules]

/-- Witness for C8 at a concrete options value. -/
theorem claim8_witness :
    (∃ t, (setOptions (some ⟨some ["css"], some ["browser"], some ["electron"]⟩)).allowedExtensions
      = DEFAULT_ALLOWED_EXTENSIONS ++ t) ∧
    (∀ x, x ∈ (setOptions (some ⟨some ["css"], some ["browser"], some ["electron"]⟩)).allowedExtensions ↔
      (x ∈ DEFAULT_ALLOWED_EXTENSIONS ∨
        ∃ e ∈ optExtraExtensions (some ⟨some ["css"], some ["browser"], some ["electron"]⟩),
          x = dotExtension e)) ∧
    (∀ x ∈ (setOptions (some ⟨some ["css"], some ["browser"], some ["electron"]⟩)).allowedExtensions,
      strStartsWith x "." = true) ∧
    (∃ t, (setOptions (some ⟨some ["css"], some ["browser"], some ["electron"]⟩)).packageFields
      = DEFAULT_PACKAGE_FIELDS ++ t) ∧
    (∀ x, x ∈ (setOptions (some ⟨some ["css"], some ["browser"], some ["electron"]⟩)).packageFields ↔
      (x ∈ DEFAULT_PACKAGE_FIELDS ∨
        x ∈ optExtraPackageFields (some ⟨some ["css"], some ["browser"], some ["electron"]⟩))) ∧
    (∀ x, x ∈ (setOptions (some ⟨some ["css"], some ["browser"], some ["electron"]⟩)).builtInModules ↔
      (x ∈ DEFAULT_BUILT_IN_MODULES ∨
        x ∈ optExtraBuiltInModules (some ⟨some ["css"], some ["browser"], some ["electron"]⟩))) :=
  claim8_options_extend_defaults (some ⟨some ["css"], some ["browser"], some ["electron"]⟩)

/-- Claim C9: in every reachable configuration — the constructor runs
`setOptions` with no options, and every reconfiguration runs `setOptions`
with some options value — the excluded-extensions set is reset to the
empty default, so the exclusion veto can never reject a candidate through
the public interface (the options type carries no field for it). -/
theorem claim9_excluded_extensions_always_empty (o : Option ModuleUtilOptions) :
    (setOptions o).excludedExtensions = [] := by
  rfl

/-- Witness for C9 at the constructor's call. -/
theorem claim9_witness : (setOptions none).excludedExtensions = [] :=
  claim9_excluded_extensions_always_empty none

end ModuleUtil
